import Mathlib

/-!
Shallow embedding of the settings core of the Uranium repository
(src/UM/Settings/MachineSettings.py) together with the collaborator
classes it uses (Setting, SettingsCategory, Profile, ResultCodes),
which are not part of the given sources and are therefore modelled
from the specification.

Python objects are embedded as immutable structures; in-place mutation
of a setting found by key becomes replacement of the first matching
element of the containing list.  Machine integers do not occur; setting
values are modelled as exact integers / strings / booleans.  Fallible
Python code (raised exceptions) is embedded with Except.
-/

deriving instance DecidableEq for Except

namespace UM

/-- Modelled from the spec: the value of a setting is numeric, boolean or
string; a freshly created setting has no value assigned yet (undef). -/
inductive SettingValue where
| undef : SettingValue
| int (n : Int) : SettingValue
| str (s : String) : SettingValue
| bool (b : Bool) : SettingValue
deriving DecidableEq

/-- Modelled from the spec: UM.Settings.Validators.ResultCodes is not in
the given sources; the spec lists the validation classifications
ok / min-warning / max-warning / min-error / max-error. -/
inductive ResultCode where
| ok : ResultCode
| min_value_warning : ResultCode
| max_value_warning : ResultCode
| min_value_error : ResultCode
| max_value_error : ResultCode
deriving DecidableEq

/-- Errors raised by the embedded Python code. -/
inductive PyErr where
| attributeError : PyErr
| invalidFileError : PyErr
| invalidVersionError : PyErr
| fileNotFoundError : PyErr
| recursionError : PyErr
deriving DecidableEq

/-- Modelled from the spec: UM.Settings.Setting is not in the given
sources.  A Setting has an immutable key, a default value, a current
value (None until first set; reading the value falls back to the
default), numeric validation bounds (error and warning min/max) and a
visibility flag. -/
structure Setting where
  key : String
  default_value : SettingValue := SettingValue.undef
  value : Option SettingValue := none
  min_value : Option Int := none
  max_value : Option Int := none
  min_value_warning : Option Int := none
  max_value_warning : Option Int := none
  visible : Bool := true
deriving DecidableEq

def Setting.getKey (s : Setting) : String := s.key

def Setting.getDefaultValue (s : Setting) : SettingValue := s.default_value

/-- Current value of a setting; falls back to the default when no value
has been assigned yet. -/
def Setting.getValue (s : Setting) : SettingValue :=
  match s.value with
  | some v => v
  | none => s.default_value

def Setting.setValue (s : Setting) (v : SettingValue) : Setting :=
  { s with value := some v }

def Setting.isVisible (s : Setting) : Bool := s.visible

/-- true when the option holds a bound strictly above n. -/
def belowBound (n : Int) (bound : Option Int) : Bool :=
  match bound with
  | some m => n < m
  | none => false

/-- true when the option holds a bound strictly below n. -/
def aboveBound (n : Int) (bound : Option Int) : Bool :=
  match bound with
  | some m => m < n
  | none => false

/-- Modelled from the spec: validation classifies the current value
against the numeric bounds; error bounds dominate warning bounds;
non-numeric values validate ok. -/
def Setting.validate (s : Setting) : ResultCode :=
  match s.getValue with
  | SettingValue.int n =>
    if belowBound n s.min_value then ResultCode.min_value_error
    else if aboveBound n s.max_value then ResultCode.max_value_error
    else if belowBound n s.min_value_warning then ResultCode.min_value_warning
    else if aboveBound n s.max_value_warning then ResultCode.max_value_warning
    else ResultCode.ok
  | _ => ResultCode.ok

/-- Modelled from the spec: a Setting matches a lookup exactly when the
key is its own (the spec's data model has no nested child settings). -/
def Setting.getSettingByKey (s : Setting) (key : String) : Option Setting :=
  if s.key = key then some s else none

/-- Modelled from the spec: a definition-file fragment for one setting,
applied by field-by-field overwrite-if-present. -/
structure SettingFragment where
  default_value : Option SettingValue := none
  min_value : Option Int := none
  max_value : Option Int := none
  min_value_warning : Option Int := none
  max_value_warning : Option Int := none
  visible : Option Bool := none
deriving DecidableEq

/-- Overwrite-if-present for a plain field. -/
def updField {α : Type} (new : Option α) (old : α) : α :=
  match new with
  | some v => v
  | none => old

/-- Overwrite-if-present for an optional field. -/
def updOptField {α : Type} (new : Option α) (old : Option α) : Option α :=
  match new with
  | some v => some v
  | none => old

/-- Modelled from the spec: Setting.fillByDict applies the fragment's
present fields onto the setting (structural update; the current value
and the key are untouched). -/
def Setting.fillByDict (s : Setting) (f : SettingFragment) : Setting :=
  { s with
    default_value := updField f.default_value s.default_value
    min_value := updOptField f.min_value s.min_value
    max_value := updOptField f.max_value s.max_value
    min_value_warning := updOptField f.min_value_warning s.min_value_warning
    max_value_warning := updOptField f.max_value_warning s.max_value_warning
    visible := updField f.visible s.visible }

/-- Modelled from the spec: UM.Settings.SettingsCategory is not in the
given sources.  A category has a key, an optional display label and an
ordered list of owned settings. -/
structure SettingsCategory where
  key : String
  label : Option String := none
  settings : List Setting := []
deriving DecidableEq

def SettingsCategory.getKey (c : SettingsCategory) : String := c.key

def SettingsCategory.getAllSettings (c : SettingsCategory) : List Setting :=
  c.settings

/-- First setting of the list that matches the key. -/
def findSettingInList : List Setting → String → Option Setting
  | [], _ => none
  | s :: rest, key =>
    match s.getSettingByKey key with
    | some r => some r
    | none => findSettingInList rest key

/-- Modelled from the spec: category lookup scans the owned settings. -/
def SettingsCategory.getSettingByKey (c : SettingsCategory) (key : String) :
    Option Setting :=
  findSettingInList c.settings key

/-- Modelled from the spec: a definition-file fragment for one category:
an optional label and nested setting fragments. -/
structure CategoryFragment where
  label : Option String := none
  settings : List (String × SettingFragment) := []
deriving DecidableEq

/-- Find-or-create within a list of settings: the first setting matching
the key is filled in place; when none matches, a fresh setting with that
key is created, filled, and appended. -/
def fillOrCreateInList : List Setting → String → SettingFragment → List Setting
  | [], key, frag => [Setting.fillByDict { key := key } frag]
  | s :: rest, key, frag =>
    if s.key = key then s.fillByDict frag :: rest
    else s :: fillOrCreateInList rest key frag

/-- Modelled from the spec: SettingsCategory.fillByDict overwrites the
label if present and find-or-creates each nested setting fragment. -/
def SettingsCategory.fillByDict (c : SettingsCategory) (f : CategoryFragment) :
    SettingsCategory :=
  { c with
    label := updOptField f.label c.label
    settings := f.settings.foldl (fun l kv => fillOrCreateInList l kv.1 kv.2) c.settings }

/-- Modelled from the spec: UM.Settings.Profile is not in the given
sources.  A profile stores a sparse key-to-value mapping of changed
settings. -/
structure Profile where
  changed_settings : List (String × SettingValue) := []
deriving DecidableEq

def Profile.getChangedSettings (p : Profile) : List (String × SettingValue) :=
  p.changed_settings

/-- State of a MachineSettings instance (MachineSettings.__init__ field
defaults). -/
structure MachineSettings where
  categories : List SettingsCategory := []
  machine_settings : List Setting := []
  name : String := "Unknown Machine"
  type_id : String := "unknown"
  type_name : String := "Unknown"
  type_version : String := "unknown"
  json_file : String := ""
  icon : String := "unknown.png"
  platform_mesh : Option String := none
  platform_texture : Option String := none
  active_profile : Option Profile := none
deriving DecidableEq

def MachineSettings.getActiveProfile (m : MachineSettings) : Option Profile :=
  m.active_profile

def MachineSettings.getTypeName (m : MachineSettings) : String := m.type_name

def MachineSettings.getTypeID (m : MachineSettings) : String := m.type_id

def MachineSettings.getName (m : MachineSettings) : String := m.name

def MachineSettings.setName (m : MachineSettings) (n : String) : MachineSettings :=
  { m with name := n }

def MachineSettings.getIcon (m : MachineSettings) : String := m.icon

def MachineSettings.getPlatformMesh (m : MachineSettings) : Option String :=
  m.platform_mesh

def MachineSettings.getPlatformTexture (m : MachineSettings) : Option String :=
  m.platform_texture

def MachineSettings.addSettingsCategory (m : MachineSettings)
    (c : SettingsCategory) : MachineSettings :=
  { m with categories := m.categories ++ [c] }

/-- First category of the list that matches the key. -/
def findCategoryInList : List SettingsCategory → String → Option SettingsCategory
  | [], _ => none
  | c :: rest, key => if c.key = key then some c else findCategoryInList rest key

def MachineSettings.getSettingsCategory (m : MachineSettings) (key : String) :
    Option SettingsCategory :=
  findCategoryInList m.categories key

def MachineSettings.getAllCategories (m : MachineSettings) :
    List SettingsCategory :=
  m.categories

/-- The loop `for category in self._categories: all_settings.extend(...)`. -/
def categorySettingsList : List SettingsCategory → List Setting
  | [] => []
  | c :: rest => c.getAllSettings ++ categorySettingsList rest

/-- getAllSettings: machine settings first when include_machine (default
False), then every category's settings in declaration order, optionally
filtered to visible-only (default False). -/
def MachineSettings.getAllSettings (m : MachineSettings)
    (include_machine : Bool := false) (visible_only : Bool := false) :
    List Setting :=
  let all := (if include_machine then m.machine_settings else []) ++
    categorySettingsList m.categories
  if visible_only then all.filter Setting.isVisible else all

def MachineSettings.getMachineSettings (m : MachineSettings) : List Setting :=
  m.machine_settings

/-- First match across a list of categories. -/
def findInCategoriesList : List SettingsCategory → String → Option Setting
  | [], _ => none
  | c :: rest, key =>
    match c.getSettingByKey key with
    | some s => some s
    | none => findInCategoriesList rest key

/-- getSettingByKey: search categories first, then the machine-level
settings; None when the key is unknown. -/
def MachineSettings.getSettingByKey (m : MachineSettings) (key : String) :
    Option Setting :=
  match findInCategoriesList m.categories key with
  | some s => some s
  | none => findSettingInList m.machine_settings key

def MachineSettings.addSetting (m : MachineSettings) (s : Setting) :
    MachineSettings :=
  { m with machine_settings := m.machine_settings ++ [s] }

/-- Replace the first setting of the list matching the key by its image
under f (embeds in-place mutation of the looked-up Setting object). -/
def updateSettingList (key : String) (f : Setting → Setting) :
    List Setting → List Setting
  | [] => []
  | s :: rest =>
    if s.key = key then f s :: rest else s :: updateSettingList key f rest

/-- Apply f to the matching setting inside the first category that
contains the key. -/
def updateSettingInCategories (key : String) (f : Setting → Setting) :
    List SettingsCategory → List SettingsCategory
  | [] => []
  | c :: rest =>
    if (c.getSettingByKey key).isSome then
      { c with settings := updateSettingList key f c.settings } :: rest
    else c :: updateSettingInCategories key f rest

/-- Mutate the setting that getSettingByKey would return (categories are
searched first, then machine settings); identity when the key is
unknown.  Returns whether a setting was found together with the new
state. -/
def applySettingByKey (m : MachineSettings) (key : String)
    (f : Setting → Setting) : Bool × MachineSettings :=
  if (findInCategoriesList m.categories key).isSome then
    (true, { m with categories := updateSettingInCategories key f m.categories })
  else if (findSettingInList m.machine_settings key).isSome then
    (true, { m with machine_settings := updateSettingList key f m.machine_settings })
  else (false, m)

/-- setSettingValueByKey: look the setting up; set its value when found,
do nothing otherwise. -/
def MachineSettings.setSettingValueByKey (m : MachineSettings) (key : String)
    (value : SettingValue) : MachineSettings :=
  (applySettingByKey m key (fun s => s.setValue value)).2

/-- getSettingValueByKey: the found setting's value, or None. -/
def MachineSettings.getSettingValueByKey (m : MachineSettings) (key : String) :
    Option SettingValue :=
  match m.getSettingByKey key with
  | some s => some s.getValue
  | none => none

/-- hasErrorValue: any setting of getAllSettings() (machine settings
excluded by the default argument) validating to a min/max error. -/
def MachineSettings.hasErrorValue (m : MachineSettings) : Bool :=
  m.getAllSettings.any fun s =>
    s.validate == ResultCode.max_value_error ||
      s.validate == ResultCode.min_value_error

/-- hasWarningValue: any setting of getAllSettings() validating to a
min/max warning. -/
def MachineSettings.hasWarningValue (m : MachineSettings) : Bool :=
  m.getAllSettings.any fun s =>
    s.validate == ResultCode.max_value_warning ||
      s.validate == ResultCode.min_value_warning

/-- The reset loop of setActiveProfile: every setting reachable through
getAllSettings() gets its value set to its default. -/
def resetSettingsList : List Setting → List Setting
  | [] => []
  | s :: rest => s.setValue s.getDefaultValue :: resetSettingsList rest

def resetCategories : List SettingsCategory → List SettingsCategory
  | [] => []
  | c :: rest => { c with settings := resetSettingsList c.settings } :: resetCategories rest

/-- setActiveProfile.  A null profile only replaces the active-profile
reference.  A non-null profile first resets every setting of
getAllSettings() — machine-level settings are excluded by the default
argument — and then iterates over the profile's stored settings; the
loop body calls self.getSetting, a method that exists neither on
MachineSettings nor (per the spec) on any collaborator, so the first
stored key raises AttributeError.  The error outcome discards the
partially mutated state. -/
def MachineSettings.setActiveProfile (m : MachineSettings)
    (profile : Option Profile) : Except PyErr MachineSettings :=
  match profile with
  | none => Except.ok { m with active_profile := none }
  | some p =>
    let m1 : MachineSettings := { m with categories := resetCategories m.categories }
    match p.getChangedSettings with
    | [] => Except.ok { m1 with active_profile := some p }
    | _ :: _ => Except.error PyErr.attributeError

def MachineDefinitionVersion : Int := 1

def MachineInstanceVersion : Int := 1

/-- Split a character list on the path separator. -/
def splitOnSlash : List Char → List Char → List (List Char)
  | [], acc => [acc.reverse]
  | c :: rest, acc =>
    if c = '/' then acc.reverse :: splitOnSlash rest []
    else splitOnSlash rest (c :: acc)

/-- Rejoin path components with the separator. -/
def joinSlash : List (List Char) → List Char
  | [] => []
  | [x] => x
  | x :: y :: rest => x ++ '/' :: joinSlash (y :: rest)

/-- os.path.basename for forward-slash paths. -/
def basename (p : String) : String :=
  String.mk ((splitOnSlash p.data []).getLastD [])

/-- os.path.dirname for forward-slash paths. -/
def dirname (p : String) : String :=
  String.mk (joinSlash (splitOnSlash p.data []).dropLast)

/-- The parsed content of one definition file (json.load result): every
top-level field the loader reads, absent fields as none. -/
structure DefData where
  id : Option String := none
  name : Option String := none
  version : Option Int := none
  platform : Option String := none
  platform_texture : Option String := none
  icon : Option String := none
  inherits : Option String := none
  machine_settings : Option (List (String × SettingFragment)) := none
  categories : Option (List (String × CategoryFragment)) := none
  overrides : Option (List (String × SettingFragment)) := none
deriving DecidableEq

/-- The file system visible to the loader: path to parsed content. -/
def FileSystem : Type := List (String × DefData)

/-- open + json.load: the parsed content at the path, or a
FileNotFoundError. -/
def lookupFile : List (String × DefData) → String → Option DefData
  | [], _ => none
  | (p, d) :: rest, path => if p = path then some d else lookupFile rest path

/-- One entry of the machine_settings section: global find, fill the
found setting, or create-and-add a machine-level setting, then fill. -/
def machineSettingEntry (m : MachineSettings) (key : String)
    (frag : SettingFragment) : MachineSettings :=
  match m.getSettingByKey key with
  | some _ => (applySettingByKey m key (fun s => s.fillByDict frag)).2
  | none => m.addSetting (Setting.fillByDict { key := key } frag)

/-- Replace the first category of the list matching the key by its image
under f. -/
def updateCategoryList (key : String) (f : SettingsCategory → SettingsCategory) :
    List SettingsCategory → List SettingsCategory
  | [] => []
  | c :: rest =>
    if c.key = key then f c :: rest else c :: updateCategoryList key f rest

/-- One entry of the categories section: find-or-create the category,
then fill it from the fragment. -/
def categoryEntry (m : MachineSettings) (key : String)
    (frag : CategoryFragment) : MachineSettings :=
  match m.getSettingsCategory key with
  | some _ =>
    { m with categories := updateCategoryList key (fun c => c.fillByDict frag) m.categories }
  | none => m.addSettingsCategory (SettingsCategory.fillByDict { key := key } frag)

/-- One entry of the overrides section: fill an existing setting found
by key, silently skip an unknown key (overrides never create). -/
def overrideEntry (m : MachineSettings) (key : String)
    (frag : SettingFragment) : MachineSettings :=
  match m.getSettingByKey key with
  | none => m
  | some _ => (applySettingByKey m key (fun s => s.fillByDict frag)).2

/-- The machine_settings layering loop (absent section: no-op). -/
def machineSettingsSection (m : MachineSettings)
    (o : Option (List (String × SettingFragment))) : MachineSettings :=
  match o with
  | some entries => entries.foldl (fun acc kv => machineSettingEntry acc kv.1 kv.2) m
  | none => m

/-- The categories layering loop (absent section: no-op). -/
def categoriesSection (m : MachineSettings)
    (o : Option (List (String × CategoryFragment))) : MachineSettings :=
  match o with
  | some entries => entries.foldl (fun acc kv => categoryEntry acc kv.1 kv.2) m
  | none => m

/-- The overrides layering loop (absent section: no-op). -/
def overridesSection (m : MachineSettings)
    (o : Option (List (String × SettingFragment))) : MachineSettings :=
  match o with
  | some entries => entries.foldl (fun acc kv => overrideEntry acc kv.1 kv.2) m
  | none => m

/-- The three section-layering loops of loadSettingsFromFile, in source
order: machine_settings, then categories, then overrides. -/
def loadSections (m : MachineSettings) (data : DefData) : MachineSettings :=
  overridesSection
    (categoriesSection
      (machineSettingsSection m data.machine_settings) data.categories)
    data.overrides

/-- The scalar metadata assignments of loadSettingsFromFile (json_file,
id, name, platform, platform_texture, version string, icon). -/
def loadMeta (m : MachineSettings) (file_name : String) (data : DefData) :
    MachineSettings :=
  let m := { m with json_file := file_name }
  let m := { m with type_id := updField data.id m.type_id }
  let m := { m with type_name := updField data.name m.type_name }
  let m := match data.platform with
    | some p => { m with platform_mesh := some p }
    | none => m
  let m := match data.platform_texture with
    | some t => { m with platform_texture := some t }
    | none => m
  let m := match data.version with
    | some v => { m with type_version := toString v }
    | none => m
  let m := match data.icon with
    | some i => { m with icon := i }
    | none => m
  m

/-- loadSettingsFromFile.  Checks id/name (InvalidFileError) then the
exact schema version (InvalidVersionError); applies the scalar metadata;
on inherits, recursively loads the parent into a fresh instance and
adopts its machine-setting and category lists wholesale; then layers the
three sections.  The recursion is bounded by fuel, modelling Python's
recursion limit (a cyclic inherits chain raises RecursionError). -/
def loadSettingsFromFile : Nat → List (String × DefData) → String →
    MachineSettings → Except PyErr MachineSettings
  | 0, _, _, _ => Except.error PyErr.recursionError
  | Nat.succ fuel, fs, file_name, m =>
    match lookupFile fs file_name with
    | none => Except.error PyErr.fileNotFoundError
    | some data =>
      if data.id.isNone || data.name.isNone then
        Except.error PyErr.invalidFileError
      else if decide (data.version ≠ some MachineDefinitionVersion) then
        Except.error PyErr.invalidVersionError
      else
        let m := loadMeta m file_name data
        match data.inherits with
        | some inh =>
          match loadSettingsFromFile fuel fs (dirname file_name ++ "/" ++ inh) {} with
          | Except.error e => Except.error e
          | Except.ok parent =>
            Except.ok (loadSections
              { m with
                machine_settings := parent.machine_settings
                categories := parent.categories } data)
        | none => Except.ok (loadSections m data)

/-- The parsed content of one machine-instance file (configparser
result): whether the General section exists, and its name, json_file and
version options. -/
structure InstanceConfig where
  has_general : Bool := false
  name : Option String := none
  json_file : Option String := none
  version : Option Int := none
deriving DecidableEq

/-- loadFromFile.  Requires the General section, an exact instance
schema version, and the name and json_file options; resolves json_file
through the external resource lookup (a FileNotFoundError there, or from
opening the definition file, becomes InvalidFileError); delegates to
loadSettingsFromFile; finally adopts the stored name. -/
def MachineSettings.loadFromFile (fuel : Nat) (fs : List (String × DefData))
    (resolve : String → Option String) (config : InstanceConfig)
    (m : MachineSettings) : Except PyErr MachineSettings :=
  if !config.has_general then Except.error PyErr.invalidFileError
  else if decide (config.version ≠ some MachineInstanceVersion) then
    Except.error PyErr.invalidVersionError
  else if config.name.isNone || config.json_file.isNone then
    Except.error PyErr.invalidFileError
  else
    match resolve (updField config.json_file "") with
    | none => Except.error PyErr.invalidFileError
    | some path =>
      match loadSettingsFromFile fuel fs path m with
      | Except.error PyErr.fileNotFoundError => Except.error PyErr.invalidFileError
      | Except.error e => Except.error e
      | Except.ok m2 => Except.ok { m2 with name := updField config.name "Unknown Machine" }

/-- saveToFile: writes exactly the machine name, the basename of the
definition file and the instance schema version. -/
def MachineSettings.saveToFile (m : MachineSettings) : InstanceConfig :=
  { has_general := true
    name := some m.name
    json_file := some (basename m.json_file)
    version := some MachineInstanceVersion }

/-- Does a machine_settings/overrides section mention the key? -/
def sectionMentions (sec : Option (List (String × SettingFragment)))
    (key : String) : Bool :=
  match sec with
  | none => false
  | some l => l.any fun kv => kv.1 == key

/-- Does any category fragment of a categories section mention the key
among its nested settings? -/
def categoriesSectionMentions (sec : Option (List (String × CategoryFragment)))
    (key : String) : Bool :=
  match sec with
  | none => false
  | some l => l.any fun kv => kv.2.settings.any fun sv => sv.1 == key

/-! Concrete states used by the counterexamples and witnesses. -/

/-- A definition file with one machine-level setting (key m, default 0)
and one category cat with one setting (key s, default 1). -/
def c1_fs : List (String × DefData) :=
  [("d/m.json",
    { id := some "i", name := some "n", version := some 1,
      machine_settings := some [("m", { default_value := some (SettingValue.int 0) })],
      categories := some [("cat",
        { settings := [("s", { default_value := some (SettingValue.int 1) })] })] })]

/-- The machine loaded from c1_fs, with both settings then moved off
their defaults through setSettingValueByKey. -/
def c1_machine : MachineSettings :=
  (((loadSettingsFromFile 1 c1_fs "d/m.json" {}).toOption.getD {}).setSettingValueByKey
      "m" (SettingValue.int 5)).setSettingValueByKey "s" (SettingValue.int 7)

/-- Activating the empty profile P1, then the empty profile P2, then
none, on c1_machine. -/
def c1_final : Except PyErr MachineSettings :=
  (c1_machine.setActiveProfile (some {})).bind fun m1 =>
    (m1.setActiveProfile (some {})).bind fun m2 =>
      m2.setActiveProfile none

/-- The state a successful activation of the empty profile on
c1_machine produces. -/
def c1_reset : MachineSettings :=
  { c1_machine with
    categories := resetCategories c1_machine.categories
    active_profile := some {} }

/-- A machine with one categorized setting speed (default 10). -/
def c2_machine : MachineSettings :=
  { categories :=
      [{ key := "speed_cat"
         settings := [{ key := "speed", default_value := SettingValue.int 10 }] }] }

/-- A profile storing one key the machine knows (speed) and one it does
not (ghost). -/
def c2_profile : Profile :=
  { changed_settings := [("speed", SettingValue.int 42),
                         ("ghost", SettingValue.int 1)] }

/-- A definition file whose version is unsupported and whose id and
name are both missing. -/
def c3_fs : List (String × DefData) :=
  [("m.json", { version := some 99 })]

/-- A definition file whose id and name are valid but whose version is
unsupported. -/
def c3w_fs : List (String × DefData) :=
  [("m.json", { id := some "a", name := some "b", version := some 99 })]

/-- A parent definition with one machine-level setting and one category
holding two settings, and a child inheriting it whose own sections
touch other keys only (layer_height appears nowhere in the child). -/
def c4_fs : List (String × DefData) :=
  [("d/parent.json",
    { id := some "p", name := some "P", version := some 1,
      machine_settings := some
        [("machine_width", { default_value := some (SettingValue.int 100) })],
      categories := some [("quality",
        { settings :=
            [("layer_height", { default_value := some (SettingValue.int 2) }),
             ("line_width", { default_value := some (SettingValue.int 4) })] })] }),
   ("d/child.json",
    { id := some "c", name := some "C", version := some 1,
      inherits := some "parent.json",
      machine_settings := some
        [("machine_depth", { default_value := some (SettingValue.int 200) })],
      categories := some [("quality",
        { settings := [("line_width", { default_value := some (SettingValue.int 5) })] })],
      overrides := some
        [("machine_width", { default_value := some (SettingValue.int 120) }),
         ("ghost", { default_value := some (SettingValue.int 9) })] })]

/-- The child definition data of c4_fs. -/
def c4_cd : DefData := (lookupFile c4_fs "d/child.json").getD {}

/-- The parent definition of c4_fs, loaded. -/
def c4_pst : MachineSettings :=
  (loadSettingsFromFile 1 c4_fs "d/parent.json" {}).toOption.getD {}

/-- The child definition of c4_fs, loaded. -/
def c4_cst : MachineSettings :=
  (loadSettingsFromFile 2 c4_fs "d/child.json" {}).toOption.getD {}

/-- The parent's layer_height setting. -/
def c4_s : Setting := (c4_pst.getSettingByKey "layer_height").getD { key := "" }

/-- A valid definition file for the instance round trip. -/
def c7_fs : List (String × DefData) :=
  [("machines/test.json", { id := some "x", name := some "X", version := some 1 })]

/-- The resource lookup of the round trip: the basename resolves back
to the original definition path. -/
def c7_resolve (n : String) : Option String :=
  if n = "test.json" then some "machines/test.json" else none

/-- A configured machine pointing at the c7_fs definition, carrying a
non-default current value to show values are not persisted. -/
def c7_machine : MachineSettings :=
  { name := "My Machine", json_file := "machines/test.json",
    categories :=
      [{ key := "g"
         settings := [{ key := "gs", default_value := SettingValue.int 1,
                        value := some (SettingValue.int 3) }] }] }

/-- The definition state the round trip reloads. -/
def c7_d : MachineSettings :=
  (loadSettingsFromFile 1 c7_fs "machines/test.json" {}).toOption.getD {}

/-! Helper lemmas. -/

/-- Resetting a list of settings makes every member's value its default. -/
theorem resetSettingsList_mem (l : List Setting) (s : Setting)
    (h : s ∈ resetSettingsList l) : s.getValue = s.getDefaultValue := by
  induction l with
  | nil => cases h
  | cons s0 rest ih =>
    unfold resetSettingsList at h
    rcases List.mem_cons.mp h with h0 | h0
    · subst h0
      simp [Setting.setValue, Setting.getValue, Setting.getDefaultValue]
    · exact ih h0

/-- Every setting listed after the category reset is at its default. -/
theorem categorySettingsList_reset_mem (cats : List SettingsCategory)
    (s : Setting) (h : s ∈ categorySettingsList (resetCategories cats)) :
    s.getValue = s.getDefaultValue := by
  induction cats with
  | nil => cases h
  | cons c rest ih =>
    unfold resetCategories categorySettingsList at h
    rcases List.mem_append.mp h with h0 | h0
    · exact resetSettingsList_mem _ _ h0
    · exact ih h0

/-- Lookup in a setting list succeeds exactly when some member has the
key. -/
theorem findSettingInList_isSome (l : List Setting) (key : String) :
    (findSettingInList l key).isSome = l.any (fun s => s.key == key) := by
  induction l with
  | nil => rfl
  | cons s rest ih =>
    unfold findSettingInList Setting.getSettingByKey
    by_cases h : s.key = key
    · simp [h]
    · simp [h, ih]

/-- A found setting carries the looked-up key. -/
theorem findSettingInList_key (l : List Setting) (key : String) (s : Setting)
    (h : findSettingInList l key = some s) : s.key = key := by
  induction l with
  | nil => cases h
  | cons s0 rest ih =>
    unfold findSettingInList Setting.getSettingByKey at h
    by_cases h0 : s0.key = key
    · simp [h0] at h
      subst h
      exact h0
    · simp [h0] at h
      exact ih h

/-- Lookup across category lists succeeds exactly when some category's
settings contain the key. -/
theorem findInCategoriesList_isSome (cats : List SettingsCategory) (key : String) :
    (findInCategoriesList cats key).isSome
      = (categorySettingsList cats).any (fun s => s.key == key) := by
  induction cats with
  | nil => rfl
  | cons c rest ih =>
    unfold findInCategoriesList categorySettingsList
    rw [List.any_append]
    cases h : c.getSettingByKey key with
    | some s =>
      have : (c.getAllSettings).any (fun s => s.key == key) = true := by
        rw [← findSettingInList_isSome]
        show (c.getSettingByKey key).isSome = true
        rw [h]
        rfl
      simp [this]
    | none =>
      have : (c.getAllSettings).any (fun s => s.key == key) = false := by
        rw [← findSettingInList_isSome]
        show (c.getSettingByKey key).isSome = false
        rw [h]
        rfl
      simp [this, ih]

/-- A setting found through the category search carries the key. -/
theorem findInCategoriesList_key (cats : List SettingsCategory) (key : String)
    (s : Setting) (h : findInCategoriesList cats key = some s) : s.key = key := by
  induction cats with
  | nil => cases h
  | cons c rest ih =>
    unfold findInCategoriesList at h
    cases h0 : c.getSettingByKey key with
    | some r =>
      rw [h0] at h
      cases h
      exact findSettingInList_key _ _ _ h0
    | none =>
      rw [h0] at h
      exact ih h

/-- Category lookup succeeds exactly when some category has the key. -/
theorem findCategoryInList_isSome (cats : List SettingsCategory) (key : String) :
    (findCategoryInList cats key).isSome = cats.any (fun c => c.key == key) := by
  induction cats with
  | nil => rfl
  | cons c rest ih =>
    unfold findCategoryInList
    by_cases h : c.key = key
    · simp [h]
    · simp [h, ih]

/-- A found category carries the looked-up key. -/
theorem findCategoryInList_key (cats : List SettingsCategory) (key : String)
    (c : SettingsCategory) (h : findCategoryInList cats key = some c) :
    c.key = key := by
  induction cats with
  | nil => cases h
  | cons c0 rest ih =>
    unfold findCategoryInList at h
    by_cases h0 : c0.key = key
    · simp [h0] at h
      subst h
      exact h0
    · simp [h0] at h
      exact ih h

/-- fillByDict does not change a setting's key. -/
theorem fillByDict_key (s : Setting) (f : SettingFragment) :
    (s.fillByDict f).key = s.key := rfl

/-- setValue does not change a setting's key. -/
theorem setValue_key (s : Setting) (v : SettingValue) :
    (s.setValue v).key = s.key := rfl

/-- Lookup distributes over list append. -/
theorem findSettingInList_append (l1 l2 : List Setting) (key : String) :
    findSettingInList (l1 ++ l2) key =
      match findSettingInList l1 key with
      | some s => some s
      | none => findSettingInList l2 key := by
  induction l1 with
  | nil => rfl
  | cons s rest ih =>
    cases h : s.getSettingByKey key with
    | some r => simp only [List.cons_append, findSettingInList, h]
    | none =>
      simp only [List.cons_append, findSettingInList, h]
      exact ih

/-- Updating the first setting with a different key leaves the lookup of
this key unchanged. -/
theorem findSettingInList_update (l : List Setting) (k key : String)
    (f : Setting → Setting) (hk : k ≠ key) (hf : ∀ s, (f s).key = s.key) :
    findSettingInList (updateSettingList k f l) key = findSettingInList l key := by
  induction l with
  | nil => rfl
  | cons s rest ih =>
    unfold updateSettingList
    by_cases h : s.key = k
    · rw [if_pos h]
      unfold findSettingInList Setting.getSettingByKey
      rw [hf s, h]
      simp only [if_neg hk]
    · rw [if_neg h]
      unfold findSettingInList
      cases hs : s.getSettingByKey key with
      | some r => simp only [hs]
      | none =>
        simp only [hs]
        exact ih

/-- find-or-create under a different key leaves the lookup of this key
unchanged. -/
theorem findSettingInList_fillOrCreate (l : List Setting) (k key : String)
    (frag : SettingFragment) (hk : k ≠ key) :
    findSettingInList (fillOrCreateInList l k frag) key
      = findSettingInList l key := by
  induction l with
  | nil =>
    unfold fillOrCreateInList findSettingInList Setting.getSettingByKey
    have hkey : (Setting.fillByDict { key := k } frag).key = k := rfl
    rw [hkey]
    simp only [if_neg hk]
    rfl
  | cons s rest ih =>
    unfold fillOrCreateInList
    by_cases h : s.key = k
    · rw [if_pos h]
      unfold findSettingInList Setting.getSettingByKey
      rw [fillByDict_key, h]
      simp only [if_neg hk]
    · rw [if_neg h]
      unfold findSettingInList
      cases hs : s.getSettingByKey key with
      | some r => simp only [hs]
      | none =>
        simp only [hs]
        exact ih

/-- Layering a batch of fragments for other keys leaves the lookup of
this key unchanged. -/
theorem findSettingInList_foldl_fillOrCreate
    (entries : List (String × SettingFragment)) (l : List Setting)
    (key : String) (h : ∀ kv ∈ entries, kv.1 ≠ key) :
    findSettingInList
        (entries.foldl (fun acc kv => fillOrCreateInList acc kv.1 kv.2) l) key
      = findSettingInList l key := by
  induction entries generalizing l with
  | nil => rfl
  | cons kv rest ih =>
    rw [List.foldl_cons]
    rw [ih _ fun x hx => h x (List.mem_cons_of_mem _ hx)]
    exact findSettingInList_fillOrCreate _ _ _ _ (h kv (List.mem_cons_self _ _))

/-- Filling a category with fragments for other keys leaves the lookup
of this key unchanged. -/
theorem fillByDict_category_frame (c : SettingsCategory) (frag : CategoryFragment)
    (key : String) (h : ∀ kv ∈ frag.settings, kv.1 ≠ key) :
    (c.fillByDict frag).getSettingByKey key = c.getSettingByKey key := by
  unfold SettingsCategory.fillByDict SettingsCategory.getSettingByKey
  exact findSettingInList_foldl_fillOrCreate _ _ _ h

/-- Category search distributes over list append. -/
theorem findInCategoriesList_append (c1 c2 : List SettingsCategory) (key : String) :
    findInCategoriesList (c1 ++ c2) key =
      match findInCategoriesList c1 key with
      | some s => some s
      | none => findInCategoriesList c2 key := by
  induction c1 with
  | nil => rfl
  | cons c rest ih =>
    cases h : c.getSettingByKey key with
    | some r => simp only [List.cons_append, findInCategoriesList, h]
    | none =>
      simp only [List.cons_append, findInCategoriesList, h]
      exact ih

/-- Updating the setting of a different key inside the categories leaves
the search for this key unchanged. -/
theorem findInCategoriesList_updateSetting (cats : List SettingsCategory)
    (k key : String) (f : Setting → Setting) (hk : k ≠ key)
    (hf : ∀ s, (f s).key = s.key) :
    findInCategoriesList (updateSettingInCategories k f cats) key
      = findInCategoriesList cats key := by
  induction cats with
  | nil => rfl
  | cons c rest ih =>
    unfold updateSettingInCategories
    by_cases h : (c.getSettingByKey k).isSome
    · rw [if_pos h]
      unfold findInCategoriesList
      have he : SettingsCategory.getSettingByKey
          { c with settings := updateSettingList k f c.settings } key
          = c.getSettingByKey key := by
        unfold SettingsCategory.getSettingByKey
        exact findSettingInList_update _ _ _ _ hk hf
      rw [he]
    · rw [if_neg h]
      unfold findInCategoriesList
      cases hs : c.getSettingByKey key with
      | some r => simp only [hs]
      | none =>
        simp only [hs]
        exact ih

/-- Replacing one category by an image that answers this key the same
way leaves the search unchanged. -/
theorem findInCategoriesList_updateCategory (cats : List SettingsCategory)
    (ck key : String) (f : SettingsCategory → SettingsCategory)
    (hf : ∀ c, (f c).getSettingByKey key = c.getSettingByKey key) :
    findInCategoriesList (updateCategoryList ck f cats) key
      = findInCategoriesList cats key := by
  induction cats with
  | nil => rfl
  | cons c rest ih =>
    unfold updateCategoryList
    by_cases h : c.key = ck
    · rw [if_pos h]
      unfold findInCategoriesList
      rw [hf c]
    · rw [if_neg h]
      unfold findInCategoriesList
      cases hs : c.getSettingByKey key with
      | some r => simp only [hs]
      | none =>
        simp only [hs]
        exact ih

/-- Lookup depends only on the category and machine-setting lists. -/
theorem getSettingByKey_congr (m m' : MachineSettings) (key : String)
    (h1 : m.categories = m'.categories)
    (h2 : m.machine_settings = m'.machine_settings) :
    m.getSettingByKey key = m'.getSettingByKey key := by
  unfold MachineSettings.getSettingByKey
  rw [h1, h2]

/-- Mutating the setting of a different key leaves the lookup of this
key unchanged. -/
theorem applySettingByKey_frame (m : MachineSettings) (k key : String)
    (f : Setting → Setting) (hk : k ≠ key) (hf : ∀ s, (f s).key = s.key) :
    ((applySettingByKey m k f).2).getSettingByKey key = m.getSettingByKey key := by
  unfold applySettingByKey
  by_cases h1 : (findInCategoriesList m.categories k).isSome
  · simp only [if_pos h1]
    unfold MachineSettings.getSettingByKey
    rw [findInCategoriesList_updateSetting _ _ _ _ hk hf]
  · simp only [if_neg h1]
    by_cases h2 : (findSettingInList m.machine_settings k).isSome
    · simp only [if_pos h2]
      unfold MachineSettings.getSettingByKey
      rw [findSettingInList_update _ _ _ _ hk hf]
    · simp only [if_neg h2]

/-- A machine_settings entry for a different key leaves the lookup of
this key unchanged. -/
theorem machineSettingEntry_frame (m : MachineSettings) (k key : String)
    (frag : SettingFragment) (hk : k ≠ key) :
    (machineSettingEntry m k frag).getSettingByKey key
      = m.getSettingByKey key := by
  unfold machineSettingEntry
  cases m.getSettingByKey k with
  | some r => exact applySettingByKey_frame _ _ _ _ hk fun s => rfl
  | none =>
    unfold MachineSettings.getSettingByKey MachineSettings.addSetting
    rw [findSettingInList_append]
    have : findSettingInList [Setting.fillByDict { key := k } frag] key = none := by
      unfold findSettingInList Setting.getSettingByKey
      have hkey : (Setting.fillByDict { key := k } frag).key = k := rfl
      rw [hkey]
      simp only [if_neg hk]
      rfl
    rw [this]
    cases findInCategoriesList m.categories key with
    | some r => rfl
    | none =>
      cases findSettingInList m.machine_settings key with
      | some r => rfl
      | none => rfl

/-- A categories entry whose fragment mentions other keys only leaves
the lookup of this key unchanged (whatever the category key is). -/
theorem categoryEntry_frame (m : MachineSettings) (ck key : String)
    (frag : CategoryFragment) (h : ∀ kv ∈ frag.settings, kv.1 ≠ key) :
    (categoryEntry m ck frag).getSettingByKey key = m.getSettingByKey key := by
  unfold categoryEntry
  cases m.getSettingsCategory ck with
  | some c0 =>
    unfold MachineSettings.getSettingByKey
    rw [findInCategoriesList_updateCategory _ _ _ _
      fun c => fillByDict_category_frame c frag key h]
  | none =>
    unfold MachineSettings.getSettingByKey MachineSettings.addSettingsCategory
    rw [findInCategoriesList_append]
    have : findInCategoriesList
        [SettingsCategory.fillByDict { key := ck } frag] key = none := by
      unfold findInCategoriesList
      rw [fillByDict_category_frame _ _ _ h]
      rfl
    rw [this]
    cases findInCategoriesList m.categories key with
    | some r => rfl
    | none => rfl

/-- An overrides entry for a different key leaves the lookup of this
key unchanged. -/
theorem overrideEntry_frame (m : MachineSettings) (k key : String)
    (frag : SettingFragment) (hk : k ≠ key) :
    (overrideEntry m k frag).getSettingByKey key = m.getSettingByKey key := by
  unfold overrideEntry
  cases m.getSettingByKey k with
  | none => rfl
  | some r => exact applySettingByKey_frame _ _ _ _ hk fun s => rfl

/-- The machine_settings layering loop over other keys leaves the
lookup of this key unchanged. -/
theorem foldl_machineSettingEntry_frame (entries : List (String × SettingFragment))
    (m : MachineSettings) (key : String) (h : ∀ kv ∈ entries, kv.1 ≠ key) :
    ((entries.foldl (fun acc kv => machineSettingEntry acc kv.1 kv.2) m)).getSettingByKey key
      = m.getSettingByKey key := by
  induction entries generalizing m with
  | nil => rfl
  | cons kv rest ih =>
    rw [List.foldl_cons]
    rw [ih _ fun x hx => h x (List.mem_cons_of_mem _ hx)]
    exact machineSettingEntry_frame _ _ _ _ (h kv (List.mem_cons_self _ _))

/-- The categories layering loop over fragments that mention other keys
only leaves the lookup of this key unchanged. -/
theorem foldl_categoryEntry_frame (entries : List (String × CategoryFragment))
    (m : MachineSettings) (key : String)
    (h : ∀ kv ∈ entries, ∀ sv ∈ kv.2.settings, sv.1 ≠ key) :
    ((entries.foldl (fun acc kv => categoryEntry acc kv.1 kv.2) m)).getSettingByKey key
      = m.getSettingByKey key := by
  induction entries generalizing m with
  | nil => rfl
  | cons kv rest ih =>
    rw [List.foldl_cons]
    rw [ih _ fun x hx => h x (List.mem_cons_of_mem _ hx)]
    exact categoryEntry_frame _ _ _ _ (h kv (List.mem_cons_self _ _))

/-- The overrides layering loop over other keys leaves the lookup of
this key unchanged. -/
theorem foldl_overrideEntry_frame (entries : List (String × SettingFragment))
    (m : MachineSettings) (key : String) (h : ∀ kv ∈ entries, kv.1 ≠ key) :
    ((entries.foldl (fun acc kv => overrideEntry acc kv.1 kv.2) m)).getSettingByKey key
      = m.getSettingByKey key := by
  induction entries generalizing m with
  | nil => rfl
  | cons kv rest ih =>
    rw [List.foldl_cons]
    rw [ih _ fun x hx => h x (List.mem_cons_of_mem _ hx)]
    exact overrideEntry_frame _ _ _ _ (h kv (List.mem_cons_self _ _))

/-- A false sectionMentions gives key-difference for every entry. -/
theorem sectionMentions_false (l : List (String × SettingFragment)) (key : String)
    (h : sectionMentions (some l) key = false) : ∀ kv ∈ l, kv.1 ≠ key := by
  intro kv hkv
  unfold sectionMentions at h
  rw [List.any_eq_false] at h
  have := h kv hkv
  simpa using this

/-- A false categoriesSectionMentions gives key-difference for every
nested setting fragment. -/
theorem categoriesSectionMentions_false (l : List (String × CategoryFragment))
    (key : String) (h : categoriesSectionMentions (some l) key = false) :
    ∀ kv ∈ l, ∀ sv ∈ kv.2.settings, sv.1 ≠ key := by
  intro kv hkv sv hsv
  unfold categoriesSectionMentions at h
  rw [List.any_eq_false] at h
  have h1 := h kv hkv
  rw [Bool.not_eq_true, List.any_eq_false] at h1
  have h2 := h1 sv hsv
  simpa using h2

/-- A machine_settings section that never mentions this key leaves the
lookup of the key unchanged. -/
theorem machineSettingsSection_frame (m : MachineSettings)
    (o : Option (List (String × SettingFragment))) (key : String)
    (h : sectionMentions o key = false) :
    (machineSettingsSection m o).getSettingByKey key = m.getSettingByKey key := by
  cases o with
  | none => rfl
  | some l => exact foldl_machineSettingEntry_frame _ _ _ (sectionMentions_false _ _ h)

/-- A categories section that never mentions this key among its nested
settings leaves the lookup of the key unchanged. -/
theorem categoriesSection_frame (m : MachineSettings)
    (o : Option (List (String × CategoryFragment))) (key : String)
    (h : categoriesSectionMentions o key = false) :
    (categoriesSection m o).getSettingByKey key = m.getSettingByKey key := by
  cases o with
  | none => rfl
  | some l =>
    exact foldl_categoryEntry_frame _ _ _ (categoriesSectionMentions_false _ _ h)

/-- An overrides section that never mentions this key leaves the lookup
of the key unchanged. -/
theorem overridesSection_frame (m : MachineSettings)
    (o : Option (List (String × SettingFragment))) (key : String)
    (h : sectionMentions o key = false) :
    (overridesSection m o).getSettingByKey key = m.getSettingByKey key := by
  cases o with
  | none => rfl
  | some l => exact foldl_overrideEntry_frame _ _ _ (sectionMentions_false _ _ h)

/-- Layering the three sections of a file whose sections never mention
this key leaves the lookup of the key unchanged. -/
theorem loadSections_frame (m : MachineSettings) (d : DefData) (key : String)
    (h1 : sectionMentions d.machine_settings key = false)
    (h2 : categoriesSectionMentions d.categories key = false)
    (h3 : sectionMentions d.overrides key = false) :
    (loadSections m d).getSettingByKey key = m.getSettingByKey key := by
  unfold loadSections
  rw [overridesSection_frame _ _ _ h3, categoriesSection_frame _ _ _ h2,
    machineSettingsSection_frame _ _ _ h1]

/-- Mutating a setting in place never touches the source-file field. -/
theorem applySettingByKey_json_file (m : MachineSettings) (k : String)
    (f : Setting → Setting) :
    ((applySettingByKey m k f).2).json_file = m.json_file := by
  unfold applySettingByKey
  split
  · rfl
  · split
    · rfl
    · rfl

/-- A machine_settings entry never touches the source-file field. -/
theorem machineSettingEntry_json_file (m : MachineSettings) (k : String)
    (frag : SettingFragment) :
    (machineSettingEntry m k frag).json_file = m.json_file := by
  unfold machineSettingEntry
  cases m.getSettingByKey k with
  | some r => exact applySettingByKey_json_file _ _ _
  | none => rfl

/-- A categories entry never touches the source-file field. -/
theorem categoryEntry_json_file (m : MachineSettings) (k : String)
    (frag : CategoryFragment) :
    (categoryEntry m k frag).json_file = m.json_file := by
  unfold categoryEntry
  cases m.getSettingsCategory k with
  | some r => rfl
  | none => rfl

/-- An overrides entry never touches the source-file field. -/
theorem overrideEntry_json_file (m : MachineSettings) (k : String)
    (frag : SettingFragment) :
    (overrideEntry m k frag).json_file = m.json_file := by
  unfold overrideEntry
  cases m.getSettingByKey k with
  | none => rfl
  | some r => exact applySettingByKey_json_file _ _ _

/-- A fold of json_file-preserving steps preserves json_file. -/
theorem foldl_json_file {α : Type} (step : MachineSettings → α → MachineSettings)
    (hstep : ∀ m a, (step m a).json_file = m.json_file) :
    ∀ (entries : List α) (m : MachineSettings),
      (entries.foldl step m).json_file = m.json_file := by
  intro entries
  induction entries with
  | nil => intro m; rfl
  | cons a rest ih =>
    intro m
    rw [List.foldl_cons, ih, hstep]

/-- The machine_settings section never touches the source-file field. -/
theorem machineSettingsSection_json_file (m : MachineSettings)
    (o : Option (List (String × SettingFragment))) :
    (machineSettingsSection m o).json_file = m.json_file := by
  cases o with
  | none => rfl
  | some l =>
    exact foldl_json_file _ (fun m a => machineSettingEntry_json_file m a.1 a.2) l m

/-- The categories section never touches the source-file field. -/
theorem categoriesSection_json_file (m : MachineSettings)
    (o : Option (List (String × CategoryFragment))) :
    (categoriesSection m o).json_file = m.json_file := by
  cases o with
  | none => rfl
  | some l =>
    exact foldl_json_file _ (fun m a => categoryEntry_json_file m a.1 a.2) l m

/-- The overrides section never touches the source-file field. -/
theorem overridesSection_json_file (m : MachineSettings)
    (o : Option (List (String × SettingFragment))) :
    (overridesSection m o).json_file = m.json_file := by
  cases o with
  | none => rfl
  | some l =>
    exact foldl_json_file _ (fun m a => overrideEntry_json_file m a.1 a.2) l m

/-- Section layering never touches the source-file field. -/
theorem loadSections_json_file (m : MachineSettings) (d : DefData) :
    (loadSections m d).json_file = m.json_file := by
  unfold loadSections
  rw [overridesSection_json_file, categoriesSection_json_file,
    machineSettingsSection_json_file]

/-- The metadata assignments set json_file to the loaded path. -/
theorem loadMeta_json_file (m : MachineSettings) (file : String) (d : DefData) :
    (loadMeta m file d).json_file = file := by
  unfold loadMeta
  cases d.platform <;> cases d.platform_texture <;> cases d.version <;>
    cases d.icon <;> rfl

/-- Unfolding of the loader at positive fuel. -/
theorem loadSettingsFromFile_succ (fuel : Nat) (fs : List (String × DefData))
    (file : String) (m : MachineSettings) :
    loadSettingsFromFile (fuel + 1) fs file m =
      match lookupFile fs file with
      | none => Except.error PyErr.fileNotFoundError
      | some data =>
        if data.id.isNone || data.name.isNone then
          Except.error PyErr.invalidFileError
        else if decide (data.version ≠ some MachineDefinitionVersion) then
          Except.error PyErr.invalidVersionError
        else
          let m := loadMeta m file data
          match data.inherits with
          | some inh =>
            match loadSettingsFromFile fuel fs (dirname file ++ "/" ++ inh) {} with
            | Except.error e => Except.error e
            | Except.ok parent =>
              Except.ok (loadSections
                { m with
                  machine_settings := parent.machine_settings
                  categories := parent.categories } data)
          | none => Except.ok (loadSections m data) := rfl

/-- A successful load records the loaded path in json_file. -/
theorem loadSettingsFromFile_json_file (fuel : Nat) (fs : List (String × DefData))
    (file : String) (m r : MachineSettings)
    (h : loadSettingsFromFile fuel fs file m = Except.ok r) :
    r.json_file = file := by
  cases fuel with
  | zero => exact absurd h (by simp [loadSettingsFromFile])
  | succ fuel =>
    cases hl : lookupFile fs file with
    | none =>
      rw [loadSettingsFromFile_succ, hl] at h
      exact absurd h (by simp)
    | some data =>
      rw [loadSettingsFromFile_succ, hl] at h
      have h2 : (if data.id.isNone || data.name.isNone then
            (Except.error PyErr.invalidFileError : Except PyErr MachineSettings)
          else if decide (data.version ≠ some MachineDefinitionVersion) then
            Except.error PyErr.invalidVersionError
          else
            match data.inherits with
            | some inh =>
              match loadSettingsFromFile fuel fs (dirname file ++ "/" ++ inh) {} with
              | Except.error e => Except.error e
              | Except.ok parent =>
                Except.ok (loadSections
                  { loadMeta m file data with
                    machine_settings := parent.machine_settings
                    categories := parent.categories } data)
            | none => Except.ok (loadSections (loadMeta m file data) data))
          = Except.ok r := h
      split at h2
      · exact absurd h2 (by simp)
      · split at h2
        · exact absurd h2 (by simp)
        · cases hinh : data.inherits with
          | some inh =>
            rw [hinh] at h2
            have h3 : (match loadSettingsFromFile fuel fs
                  (dirname file ++ "/" ++ inh) {} with
                | Except.error e => (Except.error e : Except PyErr MachineSettings)
                | Except.ok parent =>
                  Except.ok (loadSections
                    { loadMeta m file data with
                      machine_settings := parent.machine_settings
                      categories := parent.categories } data))
                = Except.ok r := h2
            cases hrec : loadSettingsFromFile fuel fs (dirname file ++ "/" ++ inh)
                {} with
            | error e =>
              rw [hrec] at h3
              exact absurd h3 (by simp)
            | ok parent =>
              rw [hrec] at h3
              have h4 : Except.ok (loadSections
                  { loadMeta m file data with
                    machine_settings := parent.machine_settings
                    categories := parent.categories } data) = Except.ok r := h3
              have hr := Except.ok.inj h4
              rw [← hr, loadSections_json_file]
              show (loadMeta m file data).json_file = file
              exact loadMeta_json_file m file data
          | none =>
            rw [hinh] at h2
            have h4 : Except.ok (loadSections (loadMeta m file data) data)
                = Except.ok r := h2
            have hr := Except.ok.inj h4
            rw [← hr, loadSections_json_file]
            exact loadMeta_json_file m file data

/-! The claims. -/

/-- Claim C1, counterexample.  On a loaded machine whose machine-level
setting m (default 0) currently holds 5, activating profile P1 = empty,
then P2 = empty, then none succeeds, yet at the end the machine-level
setting still holds 5, not its default 0: the reset loop iterates over
getAllSettings(), which excludes machine-level settings, and the null
branch resets nothing. -/
theorem c1_counterexample :
    c1_final.toOption.bind (fun m => m.getSettingValueByKey "m")
        = some (SettingValue.int 5) ∧
    c1_final.toOption.bind
        (fun m => (m.getSettingByKey "m").map Setting.getDefaultValue)
        = some (SettingValue.int 0) ∧
    SettingValue.int 5 ≠ SettingValue.int 0 := by
  refine ⟨by decide, by decide, by decide⟩

/-- Claim C1, amended: after a setActiveProfile call with a non-null
profile that returns successfully, every categorized setting — in
particular every setting whose key the profile does not store — equals
its default value, while the machine-level settings are left exactly as
they were; a setActiveProfile call with none changes no setting values
and only clears the active-profile reference. -/
theorem c1_profile_activation_amended :
    (∀ (m m' : MachineSettings) (p : Profile),
      m.setActiveProfile (some p) = Except.ok m' →
      (∀ s ∈ m'.getAllSettings,
        (∀ kv ∈ p.getChangedSettings, kv.1 ≠ s.key) →
        s.getValue = s.getDefaultValue) ∧
      m'.machine_settings = m.machine_settings) ∧
    (∀ m : MachineSettings,
      m.setActiveProfile none = Except.ok { m with active_profile := none }) := by
  constructor
  · intro m m' p h
    have h2 : (match p.getChangedSettings with
        | [] => Except.ok { m with
            categories := resetCategories m.categories
            active_profile := some p }
        | _ :: _ => (Except.error PyErr.attributeError :
            Except PyErr MachineSettings)) = Except.ok m' := h
    cases hp : p.getChangedSettings with
    | cons kv rest =>
      rw [hp] at h2
      exact absurd h2 (by simp)
    | nil =>
      rw [hp] at h2
      have hm : ({ m with
          categories := resetCategories m.categories
          active_profile := some p } : MachineSettings) = m' :=
        Except.ok.inj h2
      subst hm
      constructor
      · intro s hs _
        refine categorySettingsList_reset_mem m.categories s ?_
        simpa [MachineSettings.getAllSettings] using hs
      · rfl
  · intro m
    rfl

/-- Claim C1, amended, witness at the concrete machine c1_machine and
the empty profile. -/
theorem c1_profile_activation_amended_w :
    (∀ s ∈ c1_reset.getAllSettings,
      (∀ kv ∈ (({} : Profile)).getChangedSettings, kv.1 ≠ s.key) →
      s.getValue = s.getDefaultValue) ∧
    c1_reset.machine_settings = c1_machine.machine_settings :=
  c1_profile_activation_amended.1 c1_machine c1_reset {} (by decide)

/-- Claim C2: activating a profile that stores the key speed — which
the machine does declare — and the unknown key ghost raises
AttributeError instead of applying speed and skipping ghost: the
application loop calls self.getSetting, which does not exist. -/
theorem c2_profile_application_raises :
    (c2_machine.getSettingByKey "speed").isSome = true ∧
    c2_machine.setActiveProfile (some c2_profile)
        = Except.error PyErr.attributeError := by
  refine ⟨by decide, by decide⟩

/-- Claim C3, counterexample.  A definition whose version is 99 but
whose id and name are both absent fails with InvalidFileError, not
InvalidVersionError: the id/name check runs before the version check. -/
theorem c3_counterexample :
    loadSettingsFromFile 1 c3_fs "m.json" {}
        = Except.error PyErr.invalidFileError ∧
    (Except.error PyErr.invalidFileError : Except PyErr MachineSettings)
        ≠ Except.error PyErr.invalidVersionError := by
  refine ⟨by decide, by decide⟩

/-- Claim C3, amended: provided id and name are both present, loading a
definition whose version field is absent or differs from the supported
schema version fails with InvalidVersionError, regardless of every
other field. -/
theorem c3_version_check_amended :
    ∀ (fuel : Nat) (fs : List (String × DefData)) (file : String)
      (m : MachineSettings) (d : DefData),
      lookupFile fs file = some d →
      d.id.isSome = true →
      d.name.isSome = true →
      d.version ≠ some MachineDefinitionVersion →
      loadSettingsFromFile (fuel + 1) fs file m
        = Except.error PyErr.invalidVersionError := by
  intro fuel fs file m d hl hid hname hv
  rw [loadSettingsFromFile_succ, hl]
  show (if d.id.isNone || d.name.isNone then
      (Except.error PyErr.invalidFileError : Except PyErr MachineSettings)
    else if decide (d.version ≠ some MachineDefinitionVersion) then
      Except.error PyErr.invalidVersionError
    else
      match d.inherits with
      | some inh =>
        match loadSettingsFromFile fuel fs (dirname file ++ "/" ++ inh) {} with
        | Except.error e => Except.error e
        | Except.ok parent =>
          Except.ok (loadSections
            { loadMeta m file d with
              machine_settings := parent.machine_settings
              categories := parent.categories } d)
      | none => Except.ok (loadSections (loadMeta m file d) d))
    = Except.error PyErr.invalidVersionError
  obtain ⟨a, ha⟩ := Option.isSome_iff_exists.mp hid
  obtain ⟨b, hb⟩ := Option.isSome_iff_exists.mp hname
  have h1 : (d.id.isNone || d.name.isNone) = false := by simp [ha, hb]
  rw [h1]
  simp [hv]

/-- Claim C3, amended, witness on a concrete file with valid id and
name and version 99. -/
theorem c3_version_check_amended_w :
    loadSettingsFromFile 1 c3w_fs "m.json" {}
        = Except.error PyErr.invalidVersionError :=
  c3_version_check_amended 0 c3w_fs "m.json" {}
    { id := some "a", name := some "b", version := some 99 }
    (by decide) (by decide) (by decide) (by decide)

/-- Claim C4: after loading a child definition that inherits a parent,
every setting key the parent's loaded tree answers and that none of the
child's machine_settings, categories or overrides sections mention is
still answered by getSettingByKey with the very same setting, so in
particular with the default value the parent assigned. -/
theorem c4_inherited_defaults_preserved :
    ∀ (fuel : Nat) (fs : List (String × DefData)) (cp inh key : String)
      (cd : DefData) (pst cst : MachineSettings) (s : Setting),
      lookupFile fs cp = some cd →
      cd.inherits = some inh →
      loadSettingsFromFile fuel fs (dirname cp ++ "/" ++ inh) {} = Except.ok pst →
      pst.getSettingByKey key = some s →
      sectionMentions cd.machine_settings key = false →
      categoriesSectionMentions cd.categories key = false →
      sectionMentions cd.overrides key = false →
      loadSettingsFromFile (fuel + 1) fs cp {} = Except.ok cst →
      cst.getSettingByKey key = some s ∧
      (cst.getSettingByKey key).map Setting.getDefaultValue
        = some s.getDefaultValue := by
  intro fuel fs cp inh key cd pst cst s hl hinh hpar hkey hm1 hm2 hm3 hld
  rw [loadSettingsFromFile_succ, hl] at hld
  have h2 : (if cd.id.isNone || cd.name.isNone then
        (Except.error PyErr.invalidFileError : Except PyErr MachineSettings)
      else if decide (cd.version ≠ some MachineDefinitionVersion) then
        Except.error PyErr.invalidVersionError
      else
        match cd.inherits with
        | some inh =>
          match loadSettingsFromFile fuel fs (dirname cp ++ "/" ++ inh) {} with
          | Except.error e => Except.error e
          | Except.ok parent =>
            Except.ok (loadSections
              { loadMeta {} cp cd with
                machine_settings := parent.machine_settings
                categories := parent.categories } cd)
        | none => Except.ok (loadSections (loadMeta {} cp cd) cd))
      = Except.ok cst := hld
  split at h2
  · exact absurd h2 (by simp)
  · split at h2
    · exact absurd h2 (by simp)
    · rw [hinh] at h2
      have h3 : (match loadSettingsFromFile fuel fs (dirname cp ++ "/" ++ inh) {} with
          | Except.error e => (Except.error e : Except PyErr MachineSettings)
          | Except.ok parent =>
            Except.ok (loadSections
              { loadMeta {} cp cd with
                machine_settings := parent.machine_settings
                categories := parent.categories } cd))
          = Except.ok cst := h2
      rw [hpar] at h3
      have h4 : Except.ok (loadSections
          { loadMeta {} cp cd with
            machine_settings := pst.machine_settings
            categories := pst.categories } cd) = Except.ok cst := h3
      have hr := Except.ok.inj h4
      subst hr
      have hbase : ({ loadMeta {} cp cd with
          machine_settings := pst.machine_settings
          categories := pst.categories } : MachineSettings).getSettingByKey key
          = pst.getSettingByKey key :=
        getSettingByKey_congr _ _ _ rfl rfl
      have hfinal : (loadSections
          { loadMeta {} cp cd with
            machine_settings := pst.machine_settings
            categories := pst.categories } cd).getSettingByKey key = some s := by
        rw [loadSections_frame _ _ _ hm1 hm2 hm3, hbase, hkey]
      exact ⟨hfinal, by rw [hfinal]; rfl⟩

/-- Claim C4, witness on the concrete parent/child pair c4_fs with the
untouched inherited key layer_height. -/
theorem c4_inherited_defaults_preserved_w :
    c4_cst.getSettingByKey "layer_height" = some c4_s ∧
    (c4_cst.getSettingByKey "layer_height").map Setting.getDefaultValue
        = some c4_s.getDefaultValue :=
  c4_inherited_defaults_preserved 1 c4_fs "d/child.json" "parent.json"
    "layer_height" c4_cd c4_pst c4_cst c4_s
    (by decide) (by decide) (by decide) (by decide) (by decide) (by decide)
    (by decide) (by decide)

/-- Claim C5: an overrides entry whose key matches no existing setting
is a no-op — the state is unchanged, so in particular the length of
getAllSettings() is the same before and after processing it. -/
theorem c5_override_unknown_key_noop :
    ∀ (m : MachineSettings) (key : String) (frag : SettingFragment),
      m.getSettingByKey key = none →
      overrideEntry m key frag = m ∧
      ((overrideEntry m key frag).getAllSettings).length
        = (m.getAllSettings).length := by
  intro m key frag h
  have e : overrideEntry m key frag = m := by
    unfold overrideEntry
    rw [h]
  exact ⟨e, by rw [e]⟩

/-- Claim C5, witness on the empty machine and an unknown key. -/
theorem c5_override_unknown_key_noop_w :
    overrideEntry {} "nope" {} = ({} : MachineSettings) ∧
    ((overrideEntry {} "nope" {}).getAllSettings).length
        = (({} : MachineSettings).getAllSettings).length :=
  c5_override_unknown_key_noop {} "nope" {} (by decide)

/-- Claim C6: hasErrorValue is true exactly when some setting of
getAllSettings() validates to the min- or max-error code, and a freshly
constructed MachineSettings (no settings at all, no profile) reports
false. -/
theorem c6_hasErrorValue_iff :
    ∀ m : MachineSettings,
      (m.hasErrorValue = true ↔
        ∃ s ∈ m.getAllSettings,
          s.validate = ResultCode.min_value_error ∨
            s.validate = ResultCode.max_value_error) ∧
      ({} : MachineSettings).hasErrorValue = false := by
  intro m
  constructor
  · unfold MachineSettings.hasErrorValue
    rw [List.any_eq_true]
    constructor
    · rintro ⟨s, hs, hv⟩
      rcases Bool.or_eq_true_iff.mp hv with h | h
      · exact ⟨s, hs, Or.inr (by simpa using h)⟩
      · exact ⟨s, hs, Or.inl (by simpa using h)⟩
    · rintro ⟨s, hs, hv⟩
      refine ⟨s, hs, ?_⟩
      rcases hv with h | h
      · simp [h]
      · simp [h]
  · decide

/-- Claim C9: hasErrorValue and hasWarningValue read only categorized
settings — replacing the machine-level setting list arbitrarily, or
adding any machine-level setting (however its value validates), never
changes either answer. -/
theorem c9_machine_level_settings_invisible :
    ∀ (m : MachineSettings) (ms : List Setting) (s : Setting),
      ({ m with machine_settings := ms } : MachineSettings).hasErrorValue
          = m.hasErrorValue ∧
      ({ m with machine_settings := ms } : MachineSettings).hasWarningValue
          = m.hasWarningValue ∧
      (m.addSetting s).hasErrorValue = m.hasErrorValue ∧
      (m.addSetting s).hasWarningValue = m.hasWarningValue := by
  intro m ms s
  exact ⟨rfl, rfl, rfl, rfl⟩

/-- Claim C8: getSettingByKey answers some setting exactly when the
tree (machine settings included) holds the key, the answered setting
carries the key, and likewise for getSettingsCategory over the category
list; both are total functions returning the none sentinel otherwise. -/
theorem c8_lookups_never_fail :
    ∀ (m : MachineSettings) (key : String),
      ((m.getSettingByKey key).isSome
          = (m.getAllSettings true).any (fun s => s.key == key)) ∧
      ((m.getSettingByKey key).all (fun s => s.key == key) = true) ∧
      ((m.getSettingsCategory key).isSome
          = m.categories.any (fun c => c.key == key)) ∧
      ((m.getSettingsCategory key).all (fun c => c.key == key) = true) := by
  intro m key
  refine ⟨?_, ?_, ?_, ?_⟩
  · unfold MachineSettings.getSettingByKey MachineSettings.getAllSettings
    show (match findInCategoriesList m.categories key with
        | some s => some s
        | none => findSettingInList m.machine_settings key).isSome
      = (m.machine_settings ++ categorySettingsList m.categories).any
          (fun s => s.key == key)
    rw [List.any_append]
    cases hc : findInCategoriesList m.categories key with
    | some s =>
      have : (categorySettingsList m.categories).any (fun s => s.key == key)
          = true := by
        rw [← findInCategoriesList_isSome, hc]
        rfl
      simp [this]
    | none =>
      have h1 : (categorySettingsList m.categories).any (fun s => s.key == key)
          = false := by
        rw [← findInCategoriesList_isSome, hc]
        rfl
      rw [h1, findSettingInList_isSome]
      simp [Bool.or_comm]
  · unfold MachineSettings.getSettingByKey
    cases hc : findInCategoriesList m.categories key with
    | some s => simp [findInCategoriesList_key _ _ _ hc]
    | none =>
      cases hm : findSettingInList m.machine_settings key with
      | some s => simp [findSettingInList_key _ _ _ hm]
      | none => rfl
  · unfold MachineSettings.getSettingsCategory
    exact findCategoryInList_isSome _ _
  · unfold MachineSettings.getSettingsCategory
    cases hc : findCategoryInList m.categories key with
    | some c => simp [findCategoryInList_key _ _ _ hc]
    | none => rfl

/-- Claim C10: when no setting matches the key, setSettingValueByKey
returns the state unchanged and getSettingValueByKey answers the none
sentinel; both are total functions. -/
theorem c10_unknown_key_accessors_noop :
    ∀ (m : MachineSettings) (key : String) (v : SettingValue),
      m.getSettingByKey key = none →
      m.setSettingValueByKey key v = m ∧
      m.getSettingValueByKey key = none := by
  intro m key v h
  have h1 : findInCategoriesList m.categories key = none := by
    unfold MachineSettings.getSettingByKey at h
    cases hc : findInCategoriesList m.categories key with
    | none => rfl
    | some s =>
      rw [hc] at h
      exact absurd h (by simp)
  have h2 : findSettingInList m.machine_settings key = none := by
    unfold MachineSettings.getSettingByKey at h
    rw [h1] at h
    exact h
  constructor
  · unfold MachineSettings.setSettingValueByKey applySettingByKey
    rw [h1, h2]
    simp
  · unfold MachineSettings.getSettingValueByKey
    rw [h]

/-- Claim C10, witness on the empty machine. -/
theorem c10_unknown_key_accessors_noop_w :
    ({} : MachineSettings).setSettingValueByKey "x" (SettingValue.int 0) = {} ∧
    ({} : MachineSettings).getSettingValueByKey "x" = none :=
  c10_unknown_key_accessors_noop {} "x" (SettingValue.int 0) (by decide)

/-- Claim C7: saving an instance and loading the saved configuration on
a fresh instance reproduces the machine name and resolves to and loads
the same definition file; the saved configuration depends only on the
name and the definition path, never on machine or setting values. -/
theorem c7_instance_roundtrip :
    ∀ (fuel : Nat) (fs : List (String × DefData))
      (resolve : String → Option String) (m d : MachineSettings),
      resolve (basename m.json_file) = some m.json_file →
      loadSettingsFromFile fuel fs m.json_file {} = Except.ok d →
      MachineSettings.loadFromFile fuel fs resolve m.saveToFile {}
          = Except.ok { d with name := m.name } ∧
      ({ d with name := m.name } : MachineSettings).name = m.name ∧
      ({ d with name := m.name } : MachineSettings).json_file = m.json_file ∧
      (∀ m2 : MachineSettings, m2.name = m.name → m2.json_file = m.json_file →
        m2.saveToFile = m.saveToFile) := by
  intro fuel fs resolve m d hres hload
  refine ⟨?_, rfl, ?_, ?_⟩
  · unfold MachineSettings.loadFromFile MachineSettings.saveToFile
    simp only [Bool.not_true, if_neg]
    rw [if_neg (by simp)]
    rw [if_neg (by simp [MachineInstanceVersion])]
    rw [if_neg (by simp)]
    show (match resolve (updField (some (basename m.json_file)) "") with
      | none => (Except.error PyErr.invalidFileError : Except PyErr MachineSettings)
      | some path =>
        match loadSettingsFromFile fuel fs path {} with
        | Except.error PyErr.fileNotFoundError => Except.error PyErr.invalidFileError
        | Except.error e => Except.error e
        | Except.ok m2 =>
          Except.ok { m2 with name := updField (some m.name) "Unknown Machine" })
      = Except.ok { d with name := m.name }
    have hres2 : resolve (updField (some (basename m.json_file)) "")
        = some m.json_file := hres
    rw [hres2]
    show (match loadSettingsFromFile fuel fs m.json_file {} with
        | Except.error PyErr.fileNotFoundError =>
          (Except.error PyErr.invalidFileError : Except PyErr MachineSettings)
        | Except.error e => Except.error e
        | Except.ok m2 =>
          Except.ok { m2 with name := updField (some m.name) "Unknown Machine" })
      = Except.ok { d with name := m.name }
    rw [hload]
    rfl
  · show d.json_file = m.json_file
    exact loadSettingsFromFile_json_file fuel fs m.json_file {} d hload
  · intro m2 ha hb
    unfold MachineSettings.saveToFile
    rw [ha, hb]

/-- Claim C7, witness on the concrete machine c7_machine (whose one
setting carries a non-default value) and the definition file c7_fs. -/
theorem c7_instance_roundtrip_w :
    MachineSettings.loadFromFile 1 c7_fs c7_resolve c7_machine.saveToFile {}
        = Except.ok { c7_d with name := c7_machine.name } ∧
    ({ c7_d with name := c7_machine.name } : MachineSettings).name
        = c7_machine.name ∧
    ({ c7_d with name := c7_machine.name } : MachineSettings).json_file
        = c7_machine.json_file ∧
    (∀ m2 : MachineSettings, m2.name = c7_machine.name →
      m2.json_file = c7_machine.json_file →
      m2.saveToFile = c7_machine.saveToFile) :=
  c7_instance_roundtrip 1 c7_fs c7_resolve c7_machine c7_d (by decide) (by decide)

end UM
